import Mathlib

/-!
Shallow embedding of the SQL-Query-Validator core (src/main.rs):
the recursive predicate evaluator `evaluate_condition` and the
select-project-filter pipeline `evaluate_query`.

Modelling decisions:
* A Rust `HashMap<String, String>` row is modelled as an association list
  with the map operations `Row.get` (HashMap::get) and `Row.insert`
  (HashMap::insert, which replaces an existing binding).  A real `HashMap`
  always has pairwise-distinct keys; where a theorem needs that invariant it
  appears as an explicit `Nodup` hypothesis on the keys.
* The sqlparser AST is modelled by the constructors the code actually
  distinguishes (`Expr::BinaryOp`/`Identifier`/`Value`,
  `SelectItem::Wildcard`/`UnnamedExpr`, `Statement::Query`,
  `SetExpr::Select`); every other variant is collapsed into a catch-all
  constructor, and `op.to_string()` / `val.to_string()` /
  `relation.to_string()` are modelled as the strings themselves.
* Parsing the SQL text is an external collaborator (the sqlparser crate),
  so `evaluate_query` takes the parse outcome (`Except` models
  `Result<Vec<Statement>, ParserError>`) instead of the raw string.
* A Rust panic is modelled as `none`: `evaluate_query` returns
  `Option (List Row × Bool)`, and the only `none` arises from the
  out-of-bounds indexing `ast[0]` on a successful parse with zero
  statements.
-/

namespace SQLValidator

/-- The ASCII single-quote character used by the code to strip string
literal quotes (`trim_matches with a quote`). -/
def quoteChar : Char := Char.ofNat 39

/-- Rust `str::trim_matches(c)`: remove every leading and trailing
occurrence of the character `c`. -/
def trimMatches (c : Char) (s : String) : String :=
  String.mk (((s.data.dropWhile (fun a => a == c)).reverse.dropWhile
    (fun a => a == c)).reverse)

/-- Rust `str::to_lowercase`, modelled character by character (the inputs
of interest are ASCII table names). -/
def to_lowercase (s : String) : String :=
  String.mk (s.data.map Char.toLower)

/-- `type Row = HashMap<String, String>` modelled as an association list. -/
abbrev Row := List (String × String)

/-- `HashMap::get`. -/
def Row.get (r : Row) (k : String) : Option String :=
  List.lookup k r

/-- `HashMap::insert`: replace the binding of `k` when present, otherwise
append a fresh binding. -/
def Row.insert (k v : String) (r : Row) : Row :=
  if r.any (fun p => p.1 == k) then
    r.map (fun p => if p.1 == k then (k, v) else p)
  else
    r ++ [(k, v)]

/-- `struct Table \x7b name: String, rows: Vec<Row> \x7d`. -/
structure Table where
  name : String
  rows : List Row
deriving DecidableEq

/-- The sqlparser expression AST, restricted to the shapes the code
distinguishes; `op` carries `op.to_string()` and `value` carries
`val.to_string()`. -/
inductive Expr where
  | identifier (value : String)
  | value (v : String)
  | binaryOp (left : Expr) (op : String) (right : Expr)
  | otherExpr
deriving DecidableEq

/-- `evaluate_condition` from src/main.rs: recursively evaluate the WHERE
expression against one row. -/
def evaluate_condition : Expr → Row → Bool
  | Expr.binaryOp left op right, row =>
    match left, right with
    | Expr.identifier id, Expr.value val =>
      let column := id
      let value := trimMatches quoteChar val
      if op = "=" then Row.get row column == some value
      else if op = "!=" then Row.get row column != some value
      else false
    | l, r =>
      if op = "AND" then evaluate_condition l row && evaluate_condition r row
      else if op = "OR" then evaluate_condition l row || evaluate_condition r row
      else false
  | _, _ => false

/-- `SelectItem`, restricted to the shapes the code distinguishes. -/
inductive SelectItem where
  | wildcard
  | unnamedExpr (e : Expr)
  | otherItem
deriving DecidableEq

/-- The fields of sqlparser `Select` the code reads: projection list, the
FROM relations (each as `relation.to_string()`), and the optional WHERE
expression. -/
structure Select where
  projection : List SelectItem
  «from» : List String
  selection : Option Expr
deriving DecidableEq

/-- `SetExpr`, restricted to the `Select` shape the code distinguishes. -/
inductive SetExpr where
  | select (s : Select)
  | otherSetExpr
deriving DecidableEq

/-- `Statement`, restricted to the `Query` shape the code distinguishes. -/
inductive Statement where
  | query (body : SetExpr)
  | otherStatement
deriving DecidableEq

/-- The filter closure inside `evaluate_query`: a row survives when the
WHERE expression evaluates to true against it, or when there is no WHERE
clause. -/
def matchesSelection (selection : Option Expr) (row : Row) : Bool :=
  match selection with
  | some expr => evaluate_condition expr row
  | none => true

/-- The projection closure inside `evaluate_query`: build a fresh row from
a surviving source row, item by item. -/
def projectRow (projection : List SelectItem) (row : Row) : Row :=
  projection.foldl (fun new_row item =>
    match item with
    | SelectItem.wildcard =>
      row.foldl (fun acc kv => Row.insert kv.1 kv.2 acc) new_row
    | SelectItem.unnamedExpr (Expr.identifier id) =>
      match Row.get row id with
      | some val => Row.insert id val new_row
      | none => new_row
    | _ => new_row) []

/-- `evaluate_query` from src/main.rs, taking the upstream parse outcome.
`none` models the panic of the out-of-bounds indexing `ast[0]` when the
parse succeeded with zero statements. -/
def evaluate_query (table : Table) (parsed : Except Unit (List Statement)) :
    Option (List Row × Bool) :=
  match parsed with
  | Except.error _ => some ([], false)
  | Except.ok ast =>
    match ast with
    | [] => none
    | stmt :: _ =>
      match stmt with
      | Statement.query body =>
        match body with
        | SetExpr.select sel =>
          match sel.«from» with
          | [] => some ([], false)
          | f :: _ =>
            let table_name_in_query := to_lowercase f
            if table_name_in_query ≠ to_lowercase table.name then some ([], false)
            else
              let filtered_rows :=
                (table.rows.filter (matchesSelection sel.selection)).map
                  (projectRow sel.projection)
              some (filtered_rows, true)
        | _ => some ([], false)
      | _ => some ([], false)

/-- The `student_table` fixture from `main` and the test module. -/
def student_table : Table :=
  ⟨"student",
    [[("id", "1"), ("name", "Alice"), ("major", "CS")],
     [("id", "2"), ("name", "Bob"), ("major", "Math")],
     [("id", "3"), ("name", "Charlie"), ("major", "CS")]]⟩

/-- C1: for every table, a successful upstream parse that yields zero
statements makes `evaluate_query` fault: the indexing of the first parsed
statement (`ast[0]`) goes out of bounds, modelled as the `none` outcome, so
no `(rows, valid)` pair is returned. -/
theorem evaluate_query_panics_on_empty_parse (t : Table) :
    evaluate_query t (Except.ok []) = none := rfl

/-- C2 counterexample: a parsed SELECT whose FROM clause names two
relations, the first matching the table, does not short-circuit to
`(empty, false)`: it returns the full table with `valid = true`. -/
theorem evaluate_query_two_relations_counterexample :
    evaluate_query student_table (Except.ok [Statement.query (SetExpr.select
      ⟨[SelectItem.wildcard], ["student", "teacher"], none⟩)])
      = some (student_table.rows, true) ∧
    some (student_table.rows, true) ≠ some (([] : List Row), false) :=
  ⟨by decide, by decide⟩

/-- C2 (amended): only an empty FROM clause short-circuits to
`(empty, false)`; a FROM clause naming more than one relation is not
rejected — evaluation uses the first relation alone, exactly as if the
extra relations were absent. -/
theorem evaluate_query_from_empty_or_first (t : Table) (proj : List SelectItem)
    (sel : Option Expr) (f : String) (fs : List String) :
    evaluate_query t (Except.ok [Statement.query (SetExpr.select ⟨proj, [], sel⟩)])
      = some ([], false) ∧
    evaluate_query t (Except.ok [Statement.query (SetExpr.select ⟨proj, f :: fs, sel⟩)])
      = evaluate_query t (Except.ok [Statement.query (SetExpr.select ⟨proj, [f], sel⟩)]) :=
  ⟨rfl, rfl⟩

/-- C3: with an identifier on the left and a literal on the right, `=`
holds exactly when the row maps the column to the quote-stripped literal
(a row missing the column gives false), and `!=` holds exactly when the
row lacks the column or maps it to a different value; a single-quoted
literal CS compares equal to the stored value CS. -/
theorem evaluate_condition_comparison (row : Row) (col v : String) :
    (evaluate_condition (Expr.binaryOp (Expr.identifier col) "=" (Expr.value v)) row = true
      ↔ Row.get row col = some (trimMatches quoteChar v)) ∧
    (evaluate_condition (Expr.binaryOp (Expr.identifier col) "!=" (Expr.value v)) row = true
      ↔ Row.get row col ≠ some (trimMatches quoteChar v)) ∧
    trimMatches quoteChar (String.mk [quoteChar, 'C', 'S', quoteChar]) = "CS" := by
  refine ⟨?_, ?_, by decide⟩
  · simp [evaluate_condition]
  · simp [evaluate_condition]

/-- C4: AND evaluates to the conjunction and OR to the disjunction of the
recursive evaluations of the two operands, for arbitrary sub-expressions. -/
theorem evaluate_condition_and_or (row : Row) (l r : Expr) :
    evaluate_condition (Expr.binaryOp l "AND" r) row
      = (evaluate_condition l row && evaluate_condition r row) ∧
    evaluate_condition (Expr.binaryOp l "OR" r) row
      = (evaluate_condition l row || evaluate_condition r row) := by
  constructor <;> cases l <;> cases r <;> simp [evaluate_condition]

/-- C5: the predicate evaluator is total and fail-closed: a bare
identifier, a bare literal, or any other non-BinaryOp node evaluates to
false; a BinaryOp with an operator outside the supported set evaluates to
false; and a comparison with the literal on the left and the identifier on
the right evaluates to false. -/
theorem evaluate_condition_unsupported (row : Row) (c v op : String) (l r : Expr) :
    evaluate_condition (Expr.identifier c) row = false ∧
    evaluate_condition (Expr.value v) row = false ∧
    evaluate_condition Expr.otherExpr row = false ∧
    (op ≠ "=" → op ≠ "!=" → op ≠ "AND" → op ≠ "OR" →
      evaluate_condition (Expr.binaryOp l op r) row = false) ∧
    ((op = "=" ∨ op = "!=") →
      evaluate_condition (Expr.binaryOp (Expr.value v) op (Expr.identifier c)) row = false) := by
  refine ⟨rfl, rfl, rfl, ?_, ?_⟩
  · intro h1 h2 h3 h4
    cases l <;> cases r <;> simp [evaluate_condition, h1, h2, h3, h4]
  · rintro (rfl | rfl) <;> simp [evaluate_condition]

/-- C5 witness: concrete instances of the fail-closed clauses with
hypotheses discharged. -/
theorem evaluate_condition_unsupported_witness :
    evaluate_condition (Expr.binaryOp (Expr.identifier "a") "<" (Expr.value "b")) [] = false ∧
    evaluate_condition (Expr.binaryOp (Expr.value "b") "=" (Expr.identifier "a")) [] = false :=
  ⟨(evaluate_condition_unsupported [] "a" "b" "<" (Expr.identifier "a")
      (Expr.value "b")).2.2.2.1 (by decide) (by decide) (by decide) (by decide),
   (evaluate_condition_unsupported [] "a" "b" "=" (Expr.identifier "a")
      (Expr.value "b")).2.2.2.2 (Or.inl rfl)⟩

theorem Row.insert_of_not_mem (k v : String) (r : Row)
    (h : r.any (fun p => p.1 == k) = false) :
    Row.insert k v r = r ++ [(k, v)] := by
  simp only [Row.insert, h, Bool.false_eq_true, if_false]

theorem foldl_insert_append (l : List (String × String)) :
    ∀ acc : Row, (l.map Prod.fst).Nodup →
      (∀ p ∈ l, acc.any (fun q => q.1 == p.1) = false) →
      l.foldl (fun a kv => Row.insert kv.1 kv.2 a) acc = acc ++ l := by
  induction l with
  | nil => intro acc _ _; simp
  | cons hd tl ih =>
    intro acc hnd hdisj
    have hhd : acc.any (fun q => q.1 == hd.1) = false :=
      hdisj hd (List.mem_cons_self hd tl)
    have hnd2 : (hd.1 :: tl.map Prod.fst).Nodup := by
      rw [List.map_cons] at hnd; exact hnd
    have hnotmem : hd.1 ∉ tl.map Prod.fst := (List.nodup_cons.mp hnd2).1
    have hnd' : (tl.map Prod.fst).Nodup := (List.nodup_cons.mp hnd2).2
    have hdisj' : ∀ p ∈ tl, (acc ++ [hd]).any (fun q => q.1 == p.1) = false := by
      intro p hp
      rw [List.any_append]
      have h1 : acc.any (fun q => q.1 == p.1) = false :=
        hdisj p (List.mem_cons_of_mem hd hp)
      have h2 : ([hd].any (fun q => q.1 == p.1)) = false := by
        have hne : hd.1 ≠ p.1 := by
          intro he
          exact hnotmem (he ▸ List.mem_map_of_mem Prod.fst hp)
        simp [hne]
      rw [h1, h2]
      rfl
    calc (hd :: tl).foldl (fun a kv => Row.insert kv.1 kv.2 a) acc
        = tl.foldl (fun a kv => Row.insert kv.1 kv.2 a) (Row.insert hd.1 hd.2 acc) := by
          rw [List.foldl_cons]
      _ = tl.foldl (fun a kv => Row.insert kv.1 kv.2 a) (acc ++ [hd]) := by
          rw [Row.insert_of_not_mem hd.1 hd.2 acc hhd]
      _ = (acc ++ [hd]) ++ tl := ih (acc ++ [hd]) hnd' hdisj'
      _ = acc ++ hd :: tl := by simp

theorem projectRow_wildcard (row : Row) (h : (row.map Prod.fst).Nodup) :
    projectRow [SelectItem.wildcard] row = row := by
  show row.foldl (fun acc kv => Row.insert kv.1 kv.2 acc) [] = row
  rw [foldl_insert_append row [] h (fun p _ => rfl)]
  simp

theorem map_eq_self_of_mem (l : List Row) (f : Row → Row)
    (h : ∀ r ∈ l, f r = r) : l.map f = l := by
  induction l with
  | nil => rfl
  | cons hd tl ih =>
    rw [List.map_cons, h hd (List.mem_cons_self hd tl),
      ih (fun r hr => h r (List.mem_cons_of_mem hd hr))]

theorem filter_matchesSelection_none (l : List Row) :
    l.filter (matchesSelection none) = l :=
  List.filter_true l

/-- C6: for every table whose rows have pairwise-distinct keys (the HashMap
invariant), a wildcard SELECT with matching table name and no WHERE clause
returns exactly the table's rows, unmodified and in original order, with
valid true; with any WHERE clause the result is the order-stable filter of
the rows (a sublist of the original rows), still with valid true. -/
theorem evaluate_query_select_star (t : Table)
    (hnodup : ∀ r ∈ t.rows, (r.map Prod.fst).Nodup) :
    evaluate_query t (Except.ok [Statement.query (SetExpr.select
      ⟨[SelectItem.wildcard], [t.name], none⟩)]) = some (t.rows, true) ∧
    ∀ w : Expr,
      evaluate_query t (Except.ok [Statement.query (SetExpr.select
        ⟨[SelectItem.wildcard], [t.name], some w⟩)])
        = some (t.rows.filter (fun row => evaluate_condition w row), true) ∧
      List.Sublist (t.rows.filter (fun row => evaluate_condition w row)) t.rows := by
  have hmap : ∀ l : List Row, (∀ r ∈ l, (r.map Prod.fst).Nodup) →
      l.map (projectRow [SelectItem.wildcard]) = l := fun l hl =>
    map_eq_self_of_mem l _ (fun r hr => projectRow_wildcard r (hl r hr))
  constructor
  · show (if to_lowercase t.name ≠ to_lowercase t.name then some (([] : List Row), false)
        else some ((t.rows.filter (matchesSelection none)).map
          (projectRow [SelectItem.wildcard]), true))
      = some (t.rows, true)
    rw [if_neg (fun h => h rfl), filter_matchesSelection_none, hmap t.rows hnodup]
  · intro w
    refine ⟨?_, List.filter_sublist t.rows⟩
    show (if to_lowercase t.name ≠ to_lowercase t.name then some (([] : List Row), false)
        else some ((t.rows.filter (matchesSelection (some w))).map
          (projectRow [SelectItem.wildcard]), true))
      = some (t.rows.filter (fun row => evaluate_condition w row), true)
    rw [if_neg (fun h => h rfl),
      hmap _ (fun r hr => hnodup r (List.mem_of_mem_filter hr))]
    rfl

/-- C6 witness: the wildcard query over the concrete student table. -/
theorem evaluate_query_select_star_witness :
    evaluate_query student_table (Except.ok [Statement.query (SetExpr.select
      ⟨[SelectItem.wildcard], [student_table.name], none⟩)])
      = some (student_table.rows, true) :=
  (evaluate_query_select_star student_table (by decide)).1

/-- C7: projecting a single named column with matching table name and no
WHERE clause yields one output row per input row: the singleton mapping
when the source row contains the column, the empty mapping otherwise, with
valid true; the row count is preserved. -/
theorem evaluate_query_select_column (t : Table) (c : String) :
    evaluate_query t (Except.ok [Statement.query (SetExpr.select
      ⟨[SelectItem.unnamedExpr (Expr.identifier c)], [t.name], none⟩)])
      = some (t.rows.map (fun row =>
          match Row.get row c with
          | some v => [(c, v)]
          | none => []), true) ∧
    (t.rows.map (fun row =>
        match Row.get row c with
        | some v => [(c, v)]
        | none => [])).length = t.rows.length := by
  constructor
  · show (if to_lowercase t.name ≠ to_lowercase t.name then some (([] : List Row), false)
        else some ((t.rows.filter (matchesSelection none)).map
          (projectRow [SelectItem.unnamedExpr (Expr.identifier c)]), true))
      = _
    rw [if_neg (fun h => h rfl), filter_matchesSelection_none]
    rfl
  · exact List.length_map t.rows _

/-- C8: when the first FROM relation differs from the table's name under
case-insensitive comparison the result is `(empty, false)`; when it
matches case-insensitively this validation step passes and the query
evaluates to the filtered, projected rows with valid true. -/
theorem evaluate_query_table_name_check (t : Table) (proj : List SelectItem)
    (sel : Option Expr) (f : String) (fs : List String) :
    (to_lowercase f ≠ to_lowercase t.name →
      evaluate_query t (Except.ok [Statement.query (SetExpr.select ⟨proj, f :: fs, sel⟩)])
        = some ([], false)) ∧
    (to_lowercase f = to_lowercase t.name →
      evaluate_query t (Except.ok [Statement.query (SetExpr.select ⟨proj, f :: fs, sel⟩)])
        = some ((t.rows.filter (matchesSelection sel)).map (projectRow proj), true)) := by
  constructor
  · intro h
    show (if to_lowercase f ≠ to_lowercase t.name then some (([] : List Row), false)
        else _) = _
    rw [if_pos h]
  · intro h
    show (if to_lowercase f ≠ to_lowercase t.name then some (([] : List Row), false)
        else some ((t.rows.filter (matchesSelection sel)).map (projectRow proj), true)) = _
    rw [if_neg (fun hn => hn h)]

/-- C8 witness: a mismatching and a case-insensitively matching relation
name against the concrete student table. -/
theorem evaluate_query_table_name_check_witness :
    evaluate_query student_table (Except.ok [Statement.query (SetExpr.select
      ⟨[SelectItem.wildcard], ["teacher"], none⟩)]) = some ([], false) ∧
    evaluate_query student_table (Except.ok [Statement.query (SetExpr.select
      ⟨[SelectItem.wildcard], ["STUDENT"], none⟩)])
      = some ((student_table.rows.filter (matchesSelection none)).map
          (projectRow [SelectItem.wildcard]), true) :=
  ⟨(evaluate_query_table_name_check student_table [SelectItem.wildcard] none
      "teacher" []).1 (by decide),
   (evaluate_query_table_name_check student_table [SelectItem.wildcard] none
      "STUDENT" []).2 (by decide)⟩

/-- C9: whenever `evaluate_query` returns a pair, the validity flag is
true exactly when the structural validations pass (the parse produced a
first statement that is a SELECT query with a nonempty FROM whose first
relation matches the table name case-insensitively), and a false flag
always comes with an empty row list; zero surviving rows or absent
projected columns never make the flag false. -/
theorem evaluate_query_valid_iff_structural (t : Table)
    (p : Except Unit (List Statement)) (rows : List Row) (valid : Bool)
    (h : evaluate_query t p = some (rows, valid)) :
    (valid = true ↔ ∃ (s : Select) (rest : List Statement) (f : String) (fs : List String),
      p = Except.ok (Statement.query (SetExpr.select s) :: rest) ∧
      s.«from» = f :: fs ∧ to_lowercase f = to_lowercase t.name) ∧
    (valid = false → rows = []) := by
  cases p with
  | error e =>
    simp only [evaluate_query, Option.some.injEq, Prod.mk.injEq] at h
    obtain ⟨h1, h2⟩ := h
    subst h1; subst h2
    constructor
    · constructor
      · intro hv; exact Bool.noConfusion hv
      · rintro ⟨s, rest, f, fs, hp, -, -⟩; exact Except.noConfusion hp
    · intro _; rfl
  | ok ast =>
    cases ast with
    | nil => exact Option.noConfusion h
    | cons stmt rest =>
      cases stmt with
      | otherStatement =>
        simp only [evaluate_query, Option.some.injEq, Prod.mk.injEq] at h
        obtain ⟨h1, h2⟩ := h
        subst h1; subst h2
        constructor
        · constructor
          · intro hv; exact Bool.noConfusion hv
          · rintro ⟨s, rest', f, fs, hp, -, -⟩
            simp only [Except.ok.injEq, List.cons.injEq] at hp
            exact Statement.noConfusion hp.1
        · intro _; rfl
      | query body =>
        cases body with
        | otherSetExpr =>
          simp only [evaluate_query, Option.some.injEq, Prod.mk.injEq] at h
          obtain ⟨h1, h2⟩ := h
          subst h1; subst h2
          constructor
          · constructor
            · intro hv; exact Bool.noConfusion hv
            · rintro ⟨s, rest', f, fs, hp, -, -⟩
              simp only [Except.ok.injEq, List.cons.injEq,
                Statement.query.injEq] at hp
              exact SetExpr.noConfusion hp.1
          · intro _; rfl
        | select s =>
          rcases hsf : s.«from» with - | ⟨f0, fs0⟩
          · simp only [evaluate_query, hsf, Option.some.injEq, Prod.mk.injEq] at h
            obtain ⟨h1, h2⟩ := h
            subst h1; subst h2
            constructor
            · constructor
              · intro hv; exact Bool.noConfusion hv
              · rintro ⟨s', rest', f, fs, hp, hfrom, -⟩
                simp only [Except.ok.injEq, List.cons.injEq,
                  Statement.query.injEq, SetExpr.select.injEq] at hp
                rw [← hp.1] at hfrom
                rw [hsf] at hfrom
                exact List.noConfusion hfrom
            · intro _; rfl
          · by_cases hname : to_lowercase f0 = to_lowercase t.name
            · simp only [evaluate_query, hsf] at h
              rw [if_neg (fun hn => hn hname)] at h
              simp only [Option.some.injEq, Prod.mk.injEq] at h
              obtain ⟨h1, h2⟩ := h
              subst h1; subst h2
              constructor
              · constructor
                · intro _; exact ⟨s, rest, f0, fs0, rfl, hsf, hname⟩
                · intro _; rfl
              · intro hv; exact Bool.noConfusion hv
            · simp only [evaluate_query, hsf] at h
              rw [if_pos hname] at h
              simp only [Option.some.injEq, Prod.mk.injEq] at h
              obtain ⟨h1, h2⟩ := h
              subst h1; subst h2
              constructor
              · constructor
                · intro hv; exact Bool.noConfusion hv
                · rintro ⟨s', rest', f, fs, hp, hfrom, hmatch⟩
                  simp only [Except.ok.injEq, List.cons.injEq,
                    Statement.query.injEq, SetExpr.select.injEq] at hp
                  rw [← hp.1] at hfrom
                  rw [hsf] at hfrom
                  obtain ⟨hf, -⟩ := List.cons.inj hfrom
                  rw [hf] at hname
                  exact absurd hmatch hname
              · intro _; rfl

/-- C9 witness: a structurally valid wildcard query over the student
table; the flag is true and the structural characterization holds. -/
theorem evaluate_query_valid_iff_structural_witness :
    ((true : Bool) = true ↔ ∃ (s : Select) (rest : List Statement) (f : String)
        (fs : List String),
      (Except.ok [Statement.query (SetExpr.select
          ⟨[SelectItem.wildcard], ["student"], none⟩)]
        : Except Unit (List Statement))
        = Except.ok (Statement.query (SetExpr.select s) :: rest) ∧
      s.«from» = f :: fs ∧ to_lowercase f = to_lowercase student_table.name) ∧
    ((true : Bool) = false → student_table.rows = []) :=
  evaluate_query_valid_iff_structural student_table
    (Except.ok [Statement.query (SetExpr.select
      ⟨[SelectItem.wildcard], ["student"], none⟩)])
    student_table.rows true (by decide)

theorem foldl_middle_skip {α β : Type} (f : α → β → α) (item : β)
    (hstep : ∀ acc, f acc item = acc) (p1 p2 : List β) (init : α) :
    (p1 ++ item :: p2).foldl f init = (p1 ++ p2).foldl f init := by
  rw [List.foldl_append, List.foldl_append, List.foldl_cons, hstep]

theorem projectRow_skip (p1 p2 : List SelectItem) (item : SelectItem) (row : Row)
    (hw : item ≠ SelectItem.wildcard)
    (hid : ∀ c, item ≠ SelectItem.unnamedExpr (Expr.identifier c)) :
    projectRow (p1 ++ item :: p2) row = projectRow (p1 ++ p2) row := by
  unfold projectRow
  refine foldl_middle_skip _ item (fun acc => ?_) p1 p2 []
  cases item with
  | wildcard => exact absurd rfl hw
  | unnamedExpr e =>
    cases e with
    | identifier c => exact absurd rfl (hid c)
    | value v => rfl
    | binaryOp l op r => rfl
    | otherExpr => rfl
  | otherItem => rfl

/-- C10: a projection item that is neither a wildcard nor a bare column
identifier contributes nothing: removing it from the projection list
leaves the whole query result — rows, row count and validity flag —
unchanged. -/
theorem evaluate_query_skips_other_projection (t : Table)
    (p1 p2 : List SelectItem) (item : SelectItem) (fr : List String)
    (sel : Option Expr)
    (hw : item ≠ SelectItem.wildcard)
    (hid : ∀ c, item ≠ SelectItem.unnamedExpr (Expr.identifier c)) :
    evaluate_query t (Except.ok [Statement.query (SetExpr.select
      ⟨p1 ++ item :: p2, fr, sel⟩)])
      = evaluate_query t (Except.ok [Statement.query (SetExpr.select
        ⟨p1 ++ p2, fr, sel⟩)]) := by
  have hproj : projectRow (p1 ++ item :: p2) = projectRow (p1 ++ p2) :=
    funext (fun row => projectRow_skip p1 p2 item row hw hid)
  cases fr with
  | nil => rfl
  | cons f fs =>
    show (if to_lowercase f ≠ to_lowercase t.name then some (([] : List Row), false)
        else some ((t.rows.filter (matchesSelection sel)).map
          (projectRow (p1 ++ item :: p2)), true))
      = (if to_lowercase f ≠ to_lowercase t.name then some (([] : List Row), false)
        else some ((t.rows.filter (matchesSelection sel)).map
          (projectRow (p1 ++ p2)), true))
    rw [hproj]

/-- C10 witness: an unsupported projection item next to a wildcard over
the student table changes nothing. -/
theorem evaluate_query_skips_other_projection_witness :
    evaluate_query student_table (Except.ok [Statement.query (SetExpr.select
      ⟨[SelectItem.otherItem, SelectItem.wildcard], ["student"], none⟩)])
      = evaluate_query student_table (Except.ok [Statement.query (SetExpr.select
        ⟨[SelectItem.wildcard], ["student"], none⟩)]) :=
  evaluate_query_skips_other_projection student_table [] [SelectItem.wildcard]
    SelectItem.otherItem ["student"] none (by decide)
    (fun c h => SelectItem.noConfusion h)

end SQLValidator
